import Mathlib

/-!
Verification development for the Tencent-Translation command-line utility
(src/main.rs).  The program is shallowly embedded in Lean: the pure pieces
(language counting, canonical-request construction, TC3 signature chaining,
output formatting) become Lean functions over String, List Char and List Nat
(bytes), and the effectful skeleton of main becomes a pure function from its
inputs (argument list, environment lookup, clock, parsed network response)
to a record of the observable outcome (printed lines, result value, and
which effects the taken path performs).

Machine integers are modelled as Nat with explicit reduction mod 2 ^ 32
where the SHA-256 compression arithmetic overflows.
-/

namespace TencentTranslation

/-! ### 32-bit word arithmetic over Nat -/

/-- The 32-bit modulus. -/
def M32 : Nat := 2 ^ 32

/-- Right rotation of a 32-bit word. -/
def rotr32 (n w : Nat) : Nat := (w >>> n) ||| ((w <<< (32 - n)) % M32)

/-- Bitwise complement of a 32-bit word. -/
def not32 (w : Nat) : Nat := Nat.xor w (M32 - 1)

/-! ### SHA-256 (model of the ring crate digest used by main.rs) -/

/-- SHA-256 message-schedule sigma-0. -/
def smallSigma0 (w : Nat) : Nat := Nat.xor (rotr32 7 w) (Nat.xor (rotr32 18 w) (w >>> 3))

/-- SHA-256 message-schedule sigma-1. -/
def smallSigma1 (w : Nat) : Nat := Nat.xor (rotr32 17 w) (Nat.xor (rotr32 19 w) (w >>> 10))

/-- SHA-256 compression Sigma-0. -/
def bigSigma0 (w : Nat) : Nat := Nat.xor (rotr32 2 w) (Nat.xor (rotr32 13 w) (rotr32 22 w))

/-- SHA-256 compression Sigma-1. -/
def bigSigma1 (w : Nat) : Nat := Nat.xor (rotr32 6 w) (Nat.xor (rotr32 11 w) (rotr32 25 w))

/-- SHA-256 choice function. -/
def shaCh (e f g : Nat) : Nat := Nat.xor (Nat.land e f) (Nat.land (not32 e) g)

/-- SHA-256 majority function. -/
def shaMaj (a b c : Nat) : Nat :=
  Nat.xor (Nat.land a b) (Nat.xor (Nat.land a c) (Nat.land b c))

/-- The 64 SHA-256 round constants (decimal values of the FIPS 180-4 table). -/
def shaK : List Nat :=
  [1116352408, 1899447441, 3049323471, 3921009573, 961987163, 1508970993,
   2453635748, 2870763221, 3624381080, 310598401, 607225278, 1426881987,
   1925078388, 2162078206, 2614888103, 3248222580, 3835390401, 4022224774,
   264347078, 604807628, 770255983, 1249150122, 1555081692, 1996064986,
   2554220882, 2821834349, 2952996808, 3210313671, 3336571891, 3584528711,
   113926993, 338241895, 666307205, 773529912, 1294757372, 1396182291,
   1695183700, 1986661051, 2177026350, 2456956037, 2730485921, 2820302411,
   3259730800, 3345764771, 3516065817, 3600352804, 4094571909, 275423344,
   430227734, 506948616, 659060556, 883997877, 958139571, 1322822218,
   1537002063, 1747873779, 1955562222, 2024104815, 2227730452, 2361852424,
   2428436474, 2756734187, 3204031479, 3329325298]

/-- The SHA-256 initial hash state (decimal values of the FIPS 180-4 table). -/
def shaH0 : Nat × Nat × Nat × Nat × Nat × Nat × Nat × Nat :=
  (1779033703, 3144134277, 1013904242, 2773480762,
   1359893119, 2600822924, 528734635, 1541459225)

/-- One SHA-256 compression round: fold the state over one schedule word
paired with its round constant. -/
def shaStep (st : Nat × Nat × Nat × Nat × Nat × Nat × Nat × Nat) (wk : Nat × Nat) :
    Nat × Nat × Nat × Nat × Nat × Nat × Nat × Nat :=
  let (a, b, c, d, e, f, g, h) := st
  let t1 := (h + bigSigma1 e + shaCh e f g + wk.2 + wk.1) % M32
  let t2 := (bigSigma0 a + shaMaj a b c) % M32
  ((t1 + t2) % M32, a, b, c, (d + t1) % M32, e, f, g)

/-- Big-endian grouping of bytes into 32-bit words. -/
def bytesToWords : List Nat → List Nat
  | b0 :: b1 :: b2 :: b3 :: rest =>
      (((b0 * 256 + b1) * 256 + b2) * 256 + b3) :: bytesToWords rest
  | _ => []

/-- Extend the 16 block words to the 64-entry SHA-256 message schedule. -/
def extendSchedule (w16 : List Nat) : List Nat :=
  (List.range 48).foldl
    (fun w _ =>
      let n := w.length
      w ++ [(smallSigma1 (w.getD (n - 2) 0) + w.getD (n - 7) 0 +
             smallSigma0 (w.getD (n - 15) 0) + w.getD (n - 16) 0) % M32])
    w16

/-- Process one 64-byte block into the running SHA-256 state. -/
def shaCompress (st : Nat × Nat × Nat × Nat × Nat × Nat × Nat × Nat) (block : List Nat) :
    Nat × Nat × Nat × Nat × Nat × Nat × Nat × Nat :=
  let w := extendSchedule (bytesToWords block)
  let (a, b, c, d, e, f, g, h) := (w.zip shaK).foldl shaStep st
  let (a0, b0, c0, d0, e0, f0, g0, h0) := st
  ((a0 + a) % M32, (b0 + b) % M32, (c0 + c) % M32, (d0 + d) % M32,
   (e0 + e) % M32, (f0 + f) % M32, (g0 + g) % M32, (h0 + h) % M32)

/-- The 8-byte big-endian encoding of a 64-bit length value. -/
def u64be (n : Nat) : List Nat :=
  [n / 2 ^ 56 % 256, n / 2 ^ 48 % 256, n / 2 ^ 40 % 256, n / 2 ^ 32 % 256,
   n / 2 ^ 24 % 256, n / 2 ^ 16 % 256, n / 2 ^ 8 % 256, n % 256]

/-- SHA-256 padding: append 0x80, zeros to 56 mod 64, and the bit length. -/
def padMessage (msg : List Nat) : List Nat :=
  msg ++ 0x80 :: (List.replicate ((119 - msg.length % 64) % 64) 0 ++ u64be (8 * msg.length))

/-- Split a byte list into 64-byte blocks. -/
def toBlocks (l : List Nat) : List (List Nat) :=
  if h : l = [] then [] else l.take 64 :: toBlocks (l.drop 64)
termination_by l.length
decreasing_by
  have hp : 0 < l.length := List.length_pos.mpr h
  simp only [List.length_drop]
  omega

/-- Big-endian bytes of one 32-bit word. -/
def wordBytes (w : Nat) : List Nat :=
  [w / 2 ^ 24 % 256, w / 2 ^ 16 % 256, w / 2 ^ 8 % 256, w % 256]

/-- Big-endian bytes of the eight words of a hash state. -/
def stateBytes (st : Nat × Nat × Nat × Nat × Nat × Nat × Nat × Nat) : List Nat :=
  wordBytes st.1 ++ wordBytes st.2.1 ++ wordBytes st.2.2.1 ++ wordBytes st.2.2.2.1 ++
  wordBytes st.2.2.2.2.1 ++ wordBytes st.2.2.2.2.2.1 ++ wordBytes st.2.2.2.2.2.2.1 ++
  wordBytes st.2.2.2.2.2.2.2

/-- SHA-256 of a byte sequence, as its 32-byte digest. -/
def sha256 (msg : List Nat) : List Nat :=
  stateBytes ((toBlocks (padMessage msg)).foldl shaCompress shaH0)

/-! ### UTF-8, hex, and HMAC-SHA256 -/

/-- The UTF-8 encoding of one Unicode scalar value. -/
def utf8Char (c : Char) : List Nat :=
  let v := c.toNat
  if v < 0x80 then [v]
  else if v < 0x800 then [0xC0 + v / 64, 0x80 + v % 64]
  else if v < 0x10000 then [0xE0 + v / 4096, 0x80 + v / 64 % 64, 0x80 + v % 64]
  else [0xF0 + v / 262144, 0x80 + v / 4096 % 64, 0x80 + v / 64 % 64, 0x80 + v % 64]

/-- The UTF-8 bytes of a string (Rust str::as_bytes on the modelled string). -/
def utf8 (s : String) : List Nat := s.data.foldr (fun c acc => utf8Char c ++ acc) []

/-- Lowercase hex digit of a value below 16. -/
def hexDigit (n : Nat) : Char := if n < 10 then Char.ofNat (48 + n) else Char.ofNat (87 + n)

/-- Two lowercase hex digits of one byte. -/
def hexByte (b : Nat) : List Char := [hexDigit (b / 16), hexDigit (b % 16)]

/-- Lowercase hex encoding of a byte sequence (model of hex::encode). -/
def hexEncode (bytes : List Nat) : String :=
  String.mk (bytes.foldr (fun b acc => hexByte b ++ acc) [])

/-- HMAC-SHA256 (model of ring hmac with the SHA-256 algorithm): block size
64; a longer key is first hashed; inner pad 0x36, outer pad 0x5c. -/
def hmacSha256 (key msg : List Nat) : List Nat :=
  let k0 := if 64 < key.length then sha256 key else key
  let kp := k0 ++ List.replicate (64 - k0.length) 0
  sha256 ((kp.map (fun b => Nat.xor b 0x5c)) ++
          sha256 ((kp.map (fun b => Nat.xor b 0x36)) ++ msg))

/-! ### JSON payload serialization (model of serde_json to_string)

serde_json without the preserve-order feature stores object members in a
BTreeMap, so the payload built by the json macro in main.rs serializes with
its keys in ascending order: ProjectId, Source, SourceText, Target. -/

/-- serde_json string escaping: quote, backslash, and the control characters
below 0x20 (with short forms for backspace, tab, newline, form feed and
carriage return; other controls as a lowercase u00XX escape). -/
def jsonEscapeChar (c : Char) : List Char :=
  if c = '"' then ['\\', '"']
  else if c = '\\' then ['\\', '\\']
  else if c = '\x08' then ['\\', 'b']
  else if c = '\t' then ['\\', 't']
  else if c = '\n' then ['\\', 'n']
  else if c = '\x0c' then ['\\', 'f']
  else if c = '\r' then ['\\', 'r']
  else if c.toNat < 0x20 then
    ['\\', 'u', '0', '0', hexDigit (c.toNat / 16), hexDigit (c.toNat % 16)]
  else [c]

/-- serde_json escaping of a whole string body. -/
def jsonEscape (s : String) : String :=
  String.mk (s.data.foldr (fun c acc => jsonEscapeChar c ++ acc) [])

/-- The compact serde_json serialization of the request payload built in
main.rs: SourceText is the input text, Source is auto, Target is the
resolved target language, ProjectId is 0. -/
def payloadString (text target : String) : String :=
  "\x7b\"ProjectId\":0,\"Source\":\"auto\",\"SourceText\":\"" ++ jsonEscape text ++
  "\",\"Target\":\"" ++ jsonEscape target ++ "\"\x7d"

/-! ### Request signing pipeline (main.rs lines 102-176) -/

/-- Lowercasing as applied by main.rs to the action constant (model of Rust
str::to_lowercase restricted to the ASCII letters that constant contains). -/
def toLowercase (s : String) : String :=
  String.mk (s.data.map (fun c =>
    if 65 ≤ c.toNat ∧ c.toNat ≤ 90 then Char.ofNat (c.toNat + 32) else c))

/-- The service constant. -/
def service : String := "tmt"

/-- The API host constant. -/
def host : String := "tmt.tencentcloudapi.com"

/-- The API action constant. -/
def action : String := "TextTranslate"

/-- The signing algorithm identifier constant. -/
def algorithm : String := "TC3-HMAC-SHA256"

/-- The content-type header value constant. -/
def ct : String := "application/json; charset=utf-8"

/-- The canonical header block of the canonical request. -/
def canonical_headers : String :=
  "content-type:" ++ ct ++ "\nhost:" ++ host ++ "\nx-tc-action:" ++ toLowercase action ++ "\n"

/-- The signed-header list constant. -/
def signed_headers : String := "content-type;host;x-tc-action"

/-- Lowercase hex SHA-256 digest of the serialized payload. -/
def payload_hash (text target : String) : String :=
  hexEncode (sha256 (utf8 (payloadString text target)))

/-- The canonical request string built by main.rs (step 1). -/
def canonical_request (text target : String) : String :=
  "POST" ++ "\n" ++ "/" ++ "\n" ++ "" ++ "\n" ++ canonical_headers ++ "\n" ++
  signed_headers ++ "\n" ++ payload_hash text target

/-- The credential scope string. -/
def credential_scope (date : String) : String := date ++ "/" ++ service ++ "/tc3_request"

/-- The string-to-sign built by main.rs (step 2). -/
def string_to_sign (timestamp : Nat) (date : String) (creq : String) : String :=
  algorithm ++ "\n" ++ toString timestamp ++ "\n" ++ credential_scope date ++ "\n" ++
  hexEncode (sha256 (utf8 creq))

/-- First chained key: HMAC of the date under TC3 prefixed to the secret key. -/
def secret_date (secretKey date : String) : List Nat :=
  hmacSha256 (utf8 ("TC3" ++ secretKey)) (utf8 date)

/-- Second chained key: HMAC of the service name under the date key. -/
def secret_service (secretKey date : String) : List Nat :=
  hmacSha256 (secret_date secretKey date) (utf8 service)

/-- Third chained key: HMAC of the request-scope suffix under the service key. -/
def secret_signing (secretKey date : String) : List Nat :=
  hmacSha256 (secret_service secretKey date) (utf8 "tc3_request")

/-- The hex signature produced by main.rs (step 3). -/
def signatureHex (secretKey date : String) (timestamp : Nat) (creq : String) : String :=
  hexEncode (hmacSha256 (secret_signing secretKey date) (utf8 (string_to_sign timestamp date creq)))

/-- The Authorization header value built by main.rs (step 4). -/
def authorization (secretId secretKey date : String) (timestamp : Nat) (creq : String) : String :=
  algorithm ++ " Credential=" ++ secretId ++ "/" ++ credential_scope date ++
  ", SignedHeaders=" ++ signed_headers ++ ", Signature=" ++ signatureHex secretKey date timestamp creq

/-! ### Language classifier (main.rs lines 43-71, 95-100) -/

/-- Membership of a scalar value in the CJK ranges tested by is_chinese in
main.rs: CJK Unified Ideographs, extensions A-E, and both compatibility
blocks. -/
def is_chinese (ch : Char) : Bool :=
  (0x4E00 ≤ ch.toNat && ch.toNat ≤ 0x9FFF) ||
  (0x3400 ≤ ch.toNat && ch.toNat ≤ 0x4DBF) ||
  (0x20000 ≤ ch.toNat && ch.toNat ≤ 0x2A6DF) ||
  (0x2A700 ≤ ch.toNat && ch.toNat ≤ 0x2B73F) ||
  (0x2B740 ≤ ch.toNat && ch.toNat ≤ 0x2B81F) ||
  (0x2B820 ≤ ch.toNat && ch.toNat ≤ 0x2CEAF) ||
  (0xF900 ≤ ch.toNat && ch.toNat ≤ 0xFAFF) ||
  (0x2F800 ≤ ch.toNat && ch.toNat ≤ 0x2FA1F)

/-- One iteration of the counting loop in count_languages: an ASCII character
increments the second (english) count, otherwise a CJK character increments
the first (chinese) count, and any other character is ignored. -/
def countStep (p : Nat × Nat) (ch : Char) : Nat × Nat :=
  if ch.toNat ≤ 0x7F then (p.1, p.2 + 1)
  else if is_chinese ch then (p.1 + 1, p.2)
  else p

/-- The pair (chinese count, english count) computed by count_languages. -/
def count_languages (text : String) : Nat × Nat := text.data.foldl countStep (0, 0)

/-- The target-language selection of main.rs: en when the chinese count
strictly exceeds the english count, zh otherwise. -/
def language_to (text : String) : String :=
  if (count_languages text).1 > (count_languages text).2 then "en" else "zh"

/-! ### Parsed JSON responses (model of serde_json Value) -/

/-- Model of a parsed serde_json value. -/
inductive Json where
  | null
  | bool (b : Bool)
  | num (n : Int)
  | str (s : String)
  | arr (elems : List Json)
  | obj (entries : List (String × Json))

/-- Indexing a value by a string key, as the Index implementation used by
main.rs does: a lookup on an object, and Null on a missing key or on any
non-object value. -/
def Json.index (j : Json) (key : String) : Json :=
  match j with
  | .obj entries => (List.lookup key entries).getD Json.null
  | _ => Json.null

/-- The as_str accessor: some for a string value, none otherwise. -/
def Json.asStr : Json → Option String
  | .str s => some s
  | _ => none

/-- Rust Debug escaping of a string body (model of the escaping applied when
a string is rendered inside a Debug-formatted serde_json value; the control
characters that do not occur in the modelled outputs are left unchanged). -/
def rustDebugStr (s : String) : String :=
  "\"" ++ String.mk (s.data.foldr (fun c acc =>
    (if c = '"' then ['\\', '"']
     else if c = '\\' then ['\\', '\\']
     else if c = '\t' then ['\\', 't']
     else if c = '\n' then ['\\', 'n']
     else if c = '\r' then ['\\', 'r']
     else [c]) ++ acc) []) ++ "\""

mutual

/-- Debug rendering of a serde_json value, as printed by the diagnostic
branch of main.rs. -/
def fmtDebug : Json → String
  | .null => "Null"
  | .bool b => if b then "Bool(true)" else "Bool(false)"
  | .num n => "Number(" ++ toString n ++ ")"
  | .str s => "String(" ++ rustDebugStr s ++ ")"
  | .arr elems => "Array [" ++ fmtDebugArr elems ++ "]"
  | .obj entries => "Object \x7b" ++ fmtDebugObj entries ++ "\x7d"

/-- Debug rendering of the elements of an array, comma separated. -/
def fmtDebugArr : List Json → String
  | [] => ""
  | [j] => fmtDebug j
  | j :: rest => fmtDebug j ++ ", " ++ fmtDebugArr rest

/-- Debug rendering of the entries of an object, comma separated. -/
def fmtDebugObj : List (String × Json) → String
  | [] => ""
  | [(k, v)] => rustDebugStr k ++ ": " ++ fmtDebug v
  | (k, v) :: rest => rustDebugStr k ++ ": " ++ fmtDebug v ++ ", " ++ fmtDebugObj rest

end

/-! ### The observable behaviour of main (main.rs lines 73-218) -/

/-- The CSS constant printed on the success path. -/
def CSS : String :=
  "<style type=\"text/css\">\n.engine \x7b\n  font-family: \"MiSansVF\";\n  font-size: 18px;\n  color: #578bc5;\n\x7d\n.originalText \x7b\n    font-size: 120%;\n    font-family: \"MiSansVF\";\n    font-weight: 600;\n    display: inline-block;\n    margin: 0rem 0rem 0rem 0rem;\n    color: #2a5598;\n    margin-bottom: 0.6rem;\n\x7d\n.frame \x7b\n    margin: 1rem 0.5rem 0.5rem 0;\n    padding: 0.7rem 0.5rem 0.5rem 0;\n    border-top: 3px dashed #eaeef6;\n\x7d\ndefinition \x7b\n    font-family: \"MiSansVF\";\n    color: #2a5598;\n    height: 120px;\n    padding: 0.05em;\n    font-weight: 500;\n    font-size: 16px;\n\x7d\n</style>"

/-- The name of the secret-id environment variable. -/
def secretIdVar : String := "TENCENT_TRANSLATION_SECRET_ID"

/-- The name of the secret-key environment variable. -/
def secretKeyVar : String := "TENCENT_TRANSLATION_SECRET_KEY"

/-- The observable outcome of one run of main: the lines printed to standard
output, the returned value, and whether the taken path reaches the signing
computation and the network send. -/
structure RunResult where
  output : List String
  result : Except String Unit
  signingPerformed : Bool
  networkAttempted : Bool

/-- Pure model of main: its inputs are the argument list, the environment
lookup (Rust env::var, with none for an absent variable), the Unix timestamp,
the UTC date string that main.rs derives from it through chrono (passed here
as an oracle input, since no claim depends on the calendar conversion), and
the parsed JSON response delivered by the network oracle.  Transport
failures, which would propagate out of main before the response is parsed,
are outside the modelled paths. -/
def mainModel (args : List String) (env : String → Option String)
    (timestamp : Nat) (date : String) (response : Json) : RunResult :=
  if args.length < 2 then
    ⟨["Invalid arguments! Usage: " ++ args.headD "" ++ " <text>"],
     .error "Invalid arguments", false, false⟩
  else
    match env secretIdVar with
    | none =>
        ⟨["Please set TENCENT_TRANSLATION_SECRET_ID environment variable"],
         .error "Missing TENCENT_TRANSLATION_SECRET_ID", false, false⟩
    | some secretId =>
      match env secretKeyVar with
      | none =>
          ⟨["Please set TENCENT_TRANSLATION_SECRET_KEY environment variable"],
           .error "Missing TENCENT_TRANSLATION_SECRET_KEY", false, false⟩
      | some secretKey =>
        let text := args.getD 1 ""
        let target := language_to text
        let creq := canonical_request text target
        let _auth := authorization secretId secretKey date timestamp creq
        match ((response.index "Response").index "TargetText").asStr with
        | some translated =>
            ⟨[CSS,
              "<div class=\"originalText\">" ++ text ++ "</div>",
              "<br><br>",
              "<div class=\"frame\">",
              "<definition>" ++ translated ++ "</definition>",
              "</div>",
              "<br>"],
             .ok (), true, true⟩
        | none =>
            ⟨["Api response error! Response: " ++ fmtDebug response], .ok (), true, true⟩

/-! ### Claim-side renderings and helper definitions -/

/-- Components joined by a separator, as the specification words the
canonical-request and string-to-sign layouts. -/
def joinedBy (sep : String) : List String → String
  | [] => ""
  | [x] => x
  | x :: y :: xs => x ++ sep ++ joinedBy sep (y :: xs)

/-- The string-to-sign as the specification words it: the algorithm
identifier, the timestamp, the date followed by the fixed scope suffix, and
the hex digest of the hashed canonical request, joined by newlines. -/
def specStringToSign (timestamp : Nat) (date : String) (creq : String) : String :=
  "TC3-HMAC-SHA256\n" ++ toString timestamp ++ "\n" ++ date ++ "/tmt/tc3_request" ++ "\n" ++
  hexEncode (sha256 (utf8 creq))

/-- The signature as the specification words it: three chained keys from the
tagged secret key through the date, the service name, and the request-scope
suffix, then the keyed hash of the string-to-sign, hex encoded. -/
def specSignature (secretKey date : String) (timestamp : Nat) (creq : String) : String :=
  let k1 := hmacSha256 (utf8 ("TC3" ++ secretKey)) (utf8 date)
  let k2 := hmacSha256 k1 (utf8 "tmt")
  let k3 := hmacSha256 k2 (utf8 "tc3_request")
  hexEncode (hmacSha256 k3 (utf8 (specStringToSign timestamp date creq)))

/-- The canonical request as a function of its six components, abstracting
the concrete components main.rs supplies. -/
def canonical_request_of (method uri query headers sheaders phash : String) : String :=
  method ++ "\n" ++ uri ++ "\n" ++ query ++ "\n" ++ headers ++ "\n" ++ sheaders ++ "\n" ++ phash

/-- The SHA-256 hash of the canonical request as a function of the varying
components named by the injectivity claim, with the header block and
signed-header list fixed as in main.rs. -/
def hashOfCanonicalRequest (method uri query payload : String) : List Nat :=
  sha256 (utf8 (canonical_request_of method uri query canonical_headers signed_headers
    (hexEncode (sha256 (utf8 payload)))))

/-- Big-endian numeric value of a byte list. -/
def digestVal (l : List Nat) : Nat := l.foldl (fun a b => a * 256 + b) 0

/-- A family of pairwise distinct payload strings (n letters a). -/
def aRun (n : Nat) : String := String.mk (List.replicate n 'a')

/-- An environment with no variables set. -/
def envEmpty : String → Option String := fun _ => none

/-- An environment holding both credentials. -/
def envFull : String → Option String := fun name =>
  if name = secretIdVar then some "AKIDexample"
  else if name = secretKeyVar then some "examplekey" else none

/-- A parsed error response carrying no TargetText field. -/
def respError : Json :=
  Json.obj [("Response", Json.obj [("Error",
    Json.obj [("Code", Json.str "AuthFailure")])])]

/-- A parsed success response carrying a TargetText field. -/
def respOk : Json :=
  Json.obj [("Response", Json.obj [("TargetText", Json.str "你好")])]

/-! ### Helper lemmas -/

/-- A shared prefix cancels on the left of a string equation. -/
theorem strCancelLeft (p x y : String) (h : p ++ x = p ++ y) : x = y := by
  apply String.ext
  have hd := congrArg String.data h
  simp only [String.data_append] at hd
  exact List.append_cancel_left hd

/-- A shared suffix cancels on the right of a string equation. -/
theorem strCancelRight (x y s : String) (h : x ++ s = y ++ s) : x = y := by
  apply String.ext
  have hd := congrArg String.data h
  simp only [String.data_append] at hd
  exact List.append_cancel_right hd

/-- The lowercased action constant. -/
theorem toLowercase_action : toLowercase action = "texttranslate" := rfl

/-! ### Claims -/

/-- C1: for every input text (and resolved target), the canonical request
string built by main.rs equals exactly six components joined by newlines:
the literal method POST, the URI path /, an empty query string, the header
block listing content-type, host and the lowercased action, the
signed-header list, and the lowercase hex SHA-256 digest of the serialized
JSON payload. -/
theorem canonical_request_is_six_joined_components (text target : String) :
    canonical_request text target =
      joinedBy "\n"
        ["POST", "/", "",
         "content-type:application/json; charset=utf-8\nhost:tmt.tencentcloudapi.com\nx-tc-action:texttranslate\n",
         "content-type;host;x-tc-action",
         hexEncode (sha256 (utf8 (payloadString text target)))] := by
  apply String.ext
  simp [canonical_request, joinedBy, canonical_headers, ct, host, toLowercase_action,
    signed_headers, payload_hash, String.data_append]

/-- C2: for every secret key, date string, timestamp and canonical request,
the signature produced by main.rs is the lowercase hex encoding of
HMAC-SHA256 under the three-fold chained key (date key from the TC3-tagged
secret, then service key, then request key) of the string-to-sign assembled
from the algorithm name, the timestamp, the credential scope and the hex
digest of the hashed canonical request. -/
theorem signature_matches_chained_hmac_spec (k d : String) (ts : Nat) (c : String) :
    signatureHex k d ts c = specSignature k d ts c := by
  have hs : string_to_sign ts d c = specStringToSign ts d c := by
    apply String.ext
    simp [string_to_sign, specStringToSign, algorithm, credential_scope, service,
      String.data_append, List.append_assoc]
  simp only [signatureHex, specSignature, secret_signing, secret_service, secret_date,
    service, hs]

/-- C3: the signing pipeline is deterministic; runs on equal texts, targets,
timestamps, dates and secret keys produce identical canonical requests,
strings-to-sign and hex signatures. -/
theorem signing_pipeline_deterministic (t₁ t₂ g₁ g₂ : String) (ts₁ ts₂ : Nat)
    (d₁ d₂ k₁ k₂ : String)
    (ht : t₁ = t₂) (hg : g₁ = g₂) (hts : ts₁ = ts₂) (hd : d₁ = d₂) (hk : k₁ = k₂) :
    canonical_request t₁ g₁ = canonical_request t₂ g₂ ∧
    string_to_sign ts₁ d₁ (canonical_request t₁ g₁) =
      string_to_sign ts₂ d₂ (canonical_request t₂ g₂) ∧
    signatureHex k₁ d₁ ts₁ (canonical_request t₁ g₁) =
      signatureHex k₂ d₂ ts₂ (canonical_request t₂ g₂) := by
  subst ht hg hts hd hk
  exact ⟨rfl, rfl, rfl⟩

/-- Witness for C3 at a concrete run. -/
theorem signing_pipeline_deterministic_witness :
    canonical_request "hello" "zh" = canonical_request "hello" "zh" ∧
    string_to_sign 1636111645 "2021-11-05" (canonical_request "hello" "zh") =
      string_to_sign 1636111645 "2021-11-05" (canonical_request "hello" "zh") ∧
    signatureHex "examplekey" "2021-11-05" 1636111645 (canonical_request "hello" "zh") =
      signatureHex "examplekey" "2021-11-05" 1636111645 (canonical_request "hello" "zh") :=
  signing_pipeline_deterministic "hello" "hello" "zh" "zh" 1636111645 1636111645
    "2021-11-05" "2021-11-05" "examplekey" "examplekey" rfl rfl rfl rfl rfl

/-- A character in the modelled CJK ranges is never ASCII. -/
theorem chinese_not_ascii (c : Char) (h : is_chinese c = true) : ¬ c.toNat ≤ 0x7F := by
  simp [is_chinese] at h
  omega

/-- Folding the counting step over a run of CJK characters adds the length
of the run to the chinese count and leaves the english count unchanged. -/
theorem foldl_countStep_all_chinese :
    ∀ (l : List Char) (p : Nat × Nat), (∀ c ∈ l, is_chinese c = true) →
      l.foldl countStep p = (p.1 + l.length, p.2) := by
  intro l
  induction l with
  | nil => intro p _; simp
  | cons c t ih =>
    intro p hall
    have hc : is_chinese c = true := hall c (List.mem_cons_self c t)
    have hna : ¬ c.toNat ≤ 0x7F := chinese_not_ascii c hc
    have ht : ∀ x ∈ t, is_chinese x = true := fun x hx => hall x (List.mem_cons_of_mem c hx)
    have hstep : countStep p c = (p.1 + 1, p.2) := by simp [countStep, hna, hc]
    rw [List.foldl_cons, hstep, ih (p.1 + 1, p.2) ht]
    show (p.1 + 1 + t.length, p.2) = (p.1 + (c :: t).length, p.2)
    simp only [List.length_cons, Prod.mk.injEq]
    exact ⟨by omega, trivial⟩

/-- C4: the classifier selects en exactly when the CJK count strictly
exceeds the ASCII count, selects zh otherwise, and in particular selects zh
when the two counts are equal. -/
theorem classifier_en_iff_strictly_more_cjk (text : String) :
    (language_to text = "en" ↔ (count_languages text).2 < (count_languages text).1) ∧
    (¬ (count_languages text).2 < (count_languages text).1 → language_to text = "zh") ∧
    ((count_languages text).1 = (count_languages text).2 → language_to text = "zh") := by
  by_cases hlt : (count_languages text).2 < (count_languages text).1
  · refine ⟨⟨fun _ => hlt, fun _ => ?_⟩, fun hn => absurd hlt hn, fun he => ?_⟩
    · simp [language_to, hlt]
    · omega
  · refine ⟨⟨fun he => ?_, fun hl => absurd hl hlt⟩, fun _ => ?_, fun _ => ?_⟩
    · rw [language_to, if_neg hlt] at he
      exact absurd he (by decide)
    · rw [language_to, if_neg hlt]
    · rw [language_to, if_neg hlt]

/-- Witness for C4 at a string with one ASCII and one CJK character. -/
theorem classifier_en_iff_strictly_more_cjk_witness : language_to "a你" = "zh" :=
  (classifier_en_iff_strictly_more_cjk "a你").2.2 (by decide)

/-- C5 counterexample: the empty string consists purely (vacuously) of CJK
characters, yet the classifier selects zh for it, so the claim fails as
stated. -/
theorem pure_cjk_selects_en_fails_on_empty :
    ¬ (∀ text : String, (∀ c ∈ text.data, is_chinese c = true) → language_to text = "en") := by
  intro h
  have he := h "" (by intro c hc; simp at hc)
  exact absurd he (by decide)

/-- C5 (amended): for every nonempty string composed purely of characters in
the defined CJK ranges, the classifier selects en. -/
theorem pure_cjk_nonempty_selects_en (text : String) (hne : text ≠ "")
    (hall : ∀ c ∈ text.data, is_chinese c = true) : language_to text = "en" := by
  have hcount : count_languages text = (text.data.length, 0) := by
    have := foldl_countStep_all_chinese text.data (0, 0) hall
    simpa [count_languages] using this
  have hpos : 0 < text.data.length := by
    rcases Nat.eq_zero_or_pos text.data.length with hz | hp
    · exact absurd (String.ext (List.eq_nil_of_length_eq_zero hz)) hne
    · exact hp
  rw [language_to, hcount]
  simp only [gt_iff_lt]
  rw [if_pos hpos]

/-- Witness for C5 at a one-character CJK string. -/
theorem pure_cjk_nonempty_selects_en_witness : language_to "你" = "en" :=
  pure_cjk_nonempty_selects_en "你" (by decide) (by decide)

/-- C6: a character that is neither ASCII nor in the CJK ranges contributes
to neither count; inserting it anywhere in a string leaves the tally
unchanged. -/
theorem unclassified_char_ignored (pre suf : List Char) (c : Char)
    (hna : ¬ c.toNat ≤ 0x7F) (hnc : ¬ is_chinese c = true) :
    count_languages (String.mk (pre ++ c :: suf)) = count_languages (String.mk (pre ++ suf)) := by
  simp [count_languages, List.foldl_append, countStep, hna, hnc]

/-- Witness for C6: a fullwidth comma inserted between two ASCII letters. -/
theorem unclassified_char_ignored_witness :
    count_languages (String.mk (['a'] ++ '，' :: ['b'])) =
      count_languages (String.mk (['a'] ++ ['b'])) :=
  unclassified_char_ignored ['a'] ['b'] '，' (by decide) (by decide)

/-- Every byte of one word encoding is below 256. -/
theorem wordBytes_lt (w : Nat) : ∀ x ∈ wordBytes w, x < 256 := by
  intro x hx
  simp only [wordBytes, List.mem_cons, List.not_mem_nil, or_false] at hx
  rcases hx with h | h | h | h <;> subst h <;> exact Nat.mod_lt _ (by norm_num)

/-- A SHA-256 digest has 32 bytes. -/
theorem sha256_length (msg : List Nat) : (sha256 msg).length = 32 := by
  simp [sha256, stateBytes, wordBytes]

/-- Every byte of a SHA-256 digest is below 256. -/
theorem sha256_lt (msg : List Nat) : ∀ x ∈ sha256 msg, x < 256 := by
  intro x hx
  simp only [sha256, stateBytes, List.append_assoc, List.mem_append] at hx
  rcases hx with h | h | h | h | h | h | h | h <;> exact wordBytes_lt _ x h

/-- The big-endian value of a bounded byte list, from accumulator a, is
below (a + 1) shifted by the length. -/
theorem digestVal_aux_lt : ∀ (l : List Nat) (a : Nat), (∀ x ∈ l, x < 256) →
    l.foldl (fun a b => a * 256 + b) a < (a + 1) * 256 ^ l.length := by
  intro l
  induction l with
  | nil => intro a _; simp only [List.foldl_nil, List.length_nil, pow_zero, mul_one]; omega
  | cons b t ih =>
    intro a hall
    have hb : b < 256 := hall b (List.mem_cons_self b t)
    have ht : ∀ x ∈ t, x < 256 := fun x hx => hall x (List.mem_cons_of_mem b hx)
    have h1 := ih (a * 256 + b) ht
    calc (b :: t).foldl (fun a b => a * 256 + b) a
        = t.foldl (fun a b => a * 256 + b) (a * 256 + b) := by rw [List.foldl_cons]
      _ < (a * 256 + b + 1) * 256 ^ t.length := h1
      _ ≤ ((a + 1) * 256) * 256 ^ t.length := Nat.mul_le_mul_right _ (by omega)
      _ = (a + 1) * 256 ^ (b :: t).length := by rw [List.length_cons]; ring

/-- The big-endian value of a bounded byte list fits in as many base-256
digits as the list has entries. -/
theorem digestVal_lt (l : List Nat) (h : ∀ x ∈ l, x < 256) : digestVal l < 256 ^ l.length := by
  simpa [digestVal] using digestVal_aux_lt l 0 h

/-- The big-endian value determines a bounded byte list of known length,
together with the accumulator it started from. -/
theorem digestVal_aux_inj : ∀ (l l' : List Nat) (a a' : Nat), l.length = l'.length →
    (∀ x ∈ l, x < 256) → (∀ x ∈ l', x < 256) →
    l.foldl (fun a b => a * 256 + b) a = l'.foldl (fun a b => a * 256 + b) a' →
    a = a' ∧ l = l' := by
  intro l
  induction l with
  | nil =>
    intro l' a a' hlen _ _ heq
    have hnil : l' = [] := List.eq_nil_of_length_eq_zero hlen.symm
    subst hnil
    exact ⟨heq, rfl⟩
  | cons b t ih =>
    intro l' a a' hlen hb hb' heq
    cases l' with
    | nil => simp at hlen
    | cons b' t' =>
      have hlt : t.length = t'.length := by simpa using hlen
      have h1 : ∀ x ∈ t, x < 256 := fun x hx => hb x (List.mem_cons_of_mem b hx)
      have h2 : ∀ x ∈ t', x < 256 := fun x hx => hb' x (List.mem_cons_of_mem b' hx)
      have hrec := ih t' (a * 256 + b) (a' * 256 + b') hlt h1 h2 heq
      obtain ⟨hacc, hteq⟩ := hrec
      have hbb : b < 256 := hb b (List.mem_cons_self b t)
      have hbb' : b' < 256 := hb' b' (List.mem_cons_self b' t')
      have hab : a = a' ∧ b = b' := by omega
      exact ⟨hab.1, by rw [hab.2, hteq]⟩

/-- C7 counterexample: the claim that changing the JSON payload (other
components fixed) always changes the SHA-256 hash of the canonical request
is false: the digest space is finite while payloads are unbounded, so two
distinct payloads share a hash-of-canonical-request. -/
theorem changing_payload_does_not_always_change_hash :
    ¬ (∀ method uri query payload payload' : String, payload ≠ payload' →
        hashOfCanonicalRequest method uri query payload ≠
        hashOfCanonicalRequest method uri query payload') := by
  intro h
  have hg : ∀ n : Nat, digestVal (hashOfCanonicalRequest "POST" "/" "" (aRun n)) < 256 ^ 32 := by
    intro n
    have hlen : (hashOfCanonicalRequest "POST" "/" "" (aRun n)).length = 32 := sha256_length _
    have hlt := digestVal_lt (hashOfCanonicalRequest "POST" "/" "" (aRun n)) (sha256_lt _)
    rwa [hlen] at hlt
  obtain ⟨m, n, hmn, heq⟩ := Finite.exists_ne_map_eq_of_infinite
    (fun i : Nat =>
      (⟨digestVal (hashOfCanonicalRequest "POST" "/" "" (aRun i)), hg i⟩ : Fin (256 ^ 32)))
  have hv : digestVal (hashOfCanonicalRequest "POST" "/" "" (aRun m)) =
      digestVal (hashOfCanonicalRequest "POST" "/" "" (aRun n)) := congrArg Fin.val heq
  have hlen : (hashOfCanonicalRequest "POST" "/" "" (aRun m)).length =
      (hashOfCanonicalRequest "POST" "/" "" (aRun n)).length := by
    simp only [hashOfCanonicalRequest]
    rw [sha256_length, sha256_length]
  have hdig := (digestVal_aux_inj _ _ 0 0 hlen (sha256_lt _) (sha256_lt _)
    (by simpa [digestVal] using hv)).2
  have hpay : aRun m ≠ aRun n := by
    intro hcontra
    exact hmn (by simpa [aRun] using congrArg (fun s : String => s.data.length) hcontra)
  exact h "POST" "/" "" (aRun m) (aRun n) hpay hdig

/-- C7 (amended): canonical request construction is injective in each
varying component at the level of the canonical request string: changing any
single one of method, path, query, or the payload-hash component, holding
the others fixed, changes the canonical request string (the hash then
changes except on a SHA-256 collision of the two canonical requests). -/
theorem canonical_request_componentwise_injective
    (m m' u u' q q' hd sh ph ph' : String) :
    (m ≠ m' → canonical_request_of m u q hd sh ph ≠ canonical_request_of m' u q hd sh ph) ∧
    (u ≠ u' → canonical_request_of m u q hd sh ph ≠ canonical_request_of m u' q hd sh ph) ∧
    (q ≠ q' → canonical_request_of m u q hd sh ph ≠ canonical_request_of m u q' hd sh ph) ∧
    (ph ≠ ph' → canonical_request_of m u q hd sh ph ≠ canonical_request_of m u q hd sh ph') := by
  refine ⟨fun hne heq => hne ?_, fun hne heq => hne ?_, fun hne heq => hne ?_,
    fun hne heq => hne ?_⟩
  · have hdata := congrArg String.data heq
    simp only [canonical_request_of, String.data_append, List.append_assoc] at hdata
    exact String.ext (List.append_cancel_right hdata)
  · have hdata := congrArg String.data heq
    simp only [canonical_request_of, String.data_append, List.append_assoc] at hdata
    replace hdata := List.append_cancel_left hdata
    replace hdata := List.append_cancel_left hdata
    exact String.ext (List.append_cancel_right hdata)
  · have hdata := congrArg String.data heq
    simp only [canonical_request_of, String.data_append, List.append_assoc] at hdata
    replace hdata := List.append_cancel_left hdata
    replace hdata := List.append_cancel_left hdata
    replace hdata := List.append_cancel_left hdata
    replace hdata := List.append_cancel_left hdata
    exact String.ext (List.append_cancel_right hdata)
  · have hdata := congrArg String.data heq
    simp only [canonical_request_of, String.data_append, List.append_assoc] at hdata
    replace hdata := List.append_cancel_left hdata
    replace hdata := List.append_cancel_left hdata
    replace hdata := List.append_cancel_left hdata
    replace hdata := List.append_cancel_left hdata
    replace hdata := List.append_cancel_left hdata
    replace hdata := List.append_cancel_left hdata
    replace hdata := List.append_cancel_left hdata
    replace hdata := List.append_cancel_left hdata
    replace hdata := List.append_cancel_left hdata
    replace hdata := List.append_cancel_left hdata
    exact String.ext hdata

/-- Witness for C7 (amended): changing the method from POST to GET changes
the canonical request string. -/
theorem canonical_request_componentwise_injective_witness :
    canonical_request_of "POST" "/" "" "h" "s" "p" ≠
      canonical_request_of "GET" "/" "" "h" "s" "p" :=
  (canonical_request_componentwise_injective "POST" "GET" "/" "/x" "" "a" "h" "s" "p" "p2").1
    (by decide)

/-- C8: with at least two arguments but a missing secret-id or secret-key
environment variable, main prints the corresponding diagnostic and returns
an error immediately; the signing computation is not reached and no network
request is attempted. -/
theorem missing_env_var_fails_without_signing_or_network
    (args : List String) (env : String → Option String) (ts : Nat) (date : String)
    (resp : Json) (hargs : 2 ≤ args.length)
    (henv : env secretIdVar = none ∨ env secretKeyVar = none) :
    (∃ e, (mainModel args env ts date resp).result = .error e) ∧
    (mainModel args env ts date resp).signingPerformed = false ∧
    (mainModel args env ts date resp).networkAttempted = false ∧
    ((mainModel args env ts date resp).output =
       ["Please set TENCENT_TRANSLATION_SECRET_ID environment variable"] ∨
     (mainModel args env ts date resp).output =
       ["Please set TENCENT_TRANSLATION_SECRET_KEY environment variable"]) := by
  have hnot : ¬ args.length < 2 := by omega
  unfold mainModel
  rw [if_neg hnot]
  rcases henv with hid | hkey
  · rw [hid]
    exact ⟨⟨"Missing TENCENT_TRANSLATION_SECRET_ID", rfl⟩, rfl, rfl, Or.inl rfl⟩
  · cases hii : env secretIdVar with
    | none =>
      exact ⟨⟨"Missing TENCENT_TRANSLATION_SECRET_ID", rfl⟩, rfl, rfl, Or.inl rfl⟩
    | some sid =>
      rw [hkey]
      exact ⟨⟨"Missing TENCENT_TRANSLATION_SECRET_KEY", rfl⟩, rfl, rfl, Or.inr rfl⟩

/-- Witness for C8 with both variables absent. -/
theorem missing_env_var_fails_witness :
    2 ≤ (["prog", "hello"] : List String).length ∧
    (envEmpty secretIdVar = none ∨ envEmpty secretKeyVar = none) ∧
    ((∃ e, (mainModel ["prog", "hello"] envEmpty 0 "" Json.null).result = .error e) ∧
     (mainModel ["prog", "hello"] envEmpty 0 "" Json.null).signingPerformed = false ∧
     (mainModel ["prog", "hello"] envEmpty 0 "" Json.null).networkAttempted = false ∧
     ((mainModel ["prog", "hello"] envEmpty 0 "" Json.null).output =
        ["Please set TENCENT_TRANSLATION_SECRET_ID environment variable"] ∨
      (mainModel ["prog", "hello"] envEmpty 0 "" Json.null).output =
        ["Please set TENCENT_TRANSLATION_SECRET_KEY environment variable"])) :=
  ⟨by decide, Or.inl rfl,
    missing_env_var_fails_without_signing_or_network ["prog", "hello"] envEmpty 0 ""
      Json.null (by decide) (Or.inl rfl)⟩

/-- C9: when the parsed response has no string at Response.TargetText, main
prints exactly one diagnostic line embedding the Debug rendering of the raw
response and returns Ok. -/
theorem missing_target_text_prints_diagnostic_and_returns_ok
    (a0 text : String) (rest : List String) (env : String → Option String)
    (sid skey : String) (ts : Nat) (date : String) (resp : Json)
    (hid : env secretIdVar = some sid) (hkey : env secretKeyVar = some skey)
    (hmiss : ((resp.index "Response").index "TargetText").asStr = none) :
    (mainModel (a0 :: text :: rest) env ts date resp).output =
      ["Api response error! Response: " ++ fmtDebug resp] ∧
    (mainModel (a0 :: text :: rest) env ts date resp).result = .ok () := by
  have hnot : ¬ (a0 :: text :: rest).length < 2 := by simp
  unfold mainModel
  rw [if_neg hnot, hid, hkey, hmiss]
  exact ⟨rfl, rfl⟩

/-- Witness for C9 on an error response with credentials present. -/
theorem missing_target_text_witness :
    envFull secretIdVar = some "AKIDexample" ∧
    envFull secretKeyVar = some "examplekey" ∧
    ((respError.index "Response").index "TargetText").asStr = none ∧
    ((mainModel ["prog", "hello"] envFull 0 "" respError).output =
       ["Api response error! Response: " ++ fmtDebug respError] ∧
     (mainModel ["prog", "hello"] envFull 0 "" respError).result = .ok ()) :=
  ⟨rfl, rfl, rfl,
    missing_target_text_prints_diagnostic_and_returns_ok "prog" "hello" [] envFull
      "AKIDexample" "examplekey" 0 "" respError rfl rfl rfl⟩

/-- C10: on the success path the original input text and the translated
TargetText are interpolated verbatim into the printed HTML fragment, inside
the originalText div and the definition tag. -/
theorem success_output_interpolates_verbatim
    (a0 text : String) (rest : List String) (env : String → Option String)
    (sid skey : String) (ts : Nat) (date : String) (resp : Json) (t : String)
    (hid : env secretIdVar = some sid) (hkey : env secretKeyVar = some skey)
    (hsome : ((resp.index "Response").index "TargetText").asStr = some t) :
    "<div class=\"originalText\">" ++ text ++ "</div>" ∈
      (mainModel (a0 :: text :: rest) env ts date resp).output ∧
    "<definition>" ++ t ++ "</definition>" ∈
      (mainModel (a0 :: text :: rest) env ts date resp).output := by
  have hnot : ¬ (a0 :: text :: rest).length < 2 := by simp
  unfold mainModel
  rw [if_neg hnot, hid, hkey, hsome]
  exact ⟨by simp [List.getD], by simp⟩

/-- Witness for C10 on a success response. -/
theorem success_output_interpolates_verbatim_witness :
    envFull secretIdVar = some "AKIDexample" ∧
    envFull secretKeyVar = some "examplekey" ∧
    ((respOk.index "Response").index "TargetText").asStr = some "你好" ∧
    ("<div class=\"originalText\">" ++ "hello" ++ "</div>" ∈
       (mainModel ["prog", "hello"] envFull 0 "" respOk).output ∧
     "<definition>" ++ "你好" ++ "</definition>" ∈
       (mainModel ["prog", "hello"] envFull 0 "" respOk).output) :=
  ⟨rfl, rfl, rfl,
    success_output_interpolates_verbatim "prog" "hello" [] envFull
      "AKIDexample" "examplekey" 0 "" respOk "你好" rfl rfl rfl⟩

end TencentTranslation
